import Mathlib

/-!
Verification of the CodeMentor refinement/convergence core against its
specification.  The definitions below are shallow embeddings of:

* src/cli/enhanced_apply_fixes.py  (RefactoringProgressTracker, the smart
  interactive loop of SmartFixApplicator)
* src/agents/comprehensive_analysis_agent.py  (CategorizedIssue,
  classification of static issues, deduplication, overall score)
* src/agents/iterative_analysis_agent.py  (CategorizedIssue with
  iteration_found, per-iteration deduplication)

Modelling conventions:
* Python str is Lean String; the Python substring test (k in s) is strContains.
* Python float is modelled as the exact rational (the scores and weights in
  the source are small decimal literals; no claim hinges on binary rounding).
* Python int fields of StoppingCriteria are modelled as Nat: every
  construction in the source uses non-negative literals.
* Python dicts keyed by strings with insertion order are modelled as
  association lists (List (String × _)) with the same first-insertion order.
* hashlib.md5(content)[:12] is modelled by its preimage content string:
  identity of ids is decided by identity of the hashed content.
* A Python KeyError is modelled by Option.none on the reading function.
-/

namespace CodeMentor

/-- Python substring membership: k in s. -/
def strContains (s pat : String) : Bool :=
  s.data.tails.any (fun t => pat.data.isPrefixOf t)

/-- Python any(keyword in description for keyword in kws). -/
def containsAny (description : String) (kws : List String) : Bool :=
  kws.any (fun k => strContains description k)

/-- Lookup in an insertion-ordered Python dict modelled as an association
list: the first entry with the key. -/
def findEntry (id : String) : List (String × α) → Option α
  | [] => none
  | (k, v) :: rest => if k = id then some v else findEntry id rest

namespace Cli

/-- cli/enhanced_apply_fixes.py IssueCategory. -/
inductive IssueCategory where
  | structural
  | design
  | style
  | security
  | performance
deriving DecidableEq, Repr

/-- IssueCategory.value strings. -/
def IssueCategory.value : IssueCategory → String
  | .structural => "structural"
  | .design => "design"
  | .style => "style"
  | .security => "security"
  | .performance => "performance"

/-- structural_keywords in RefactoringProgressTracker._classify_issue. -/
def structuralKeywords : List String :=
  ["long method", "long function", "long class", "complexity",
   "cyclomatic", "nesting", "too many", "large class"]

/-- design_keywords in RefactoringProgressTracker._classify_issue. -/
def designKeywords : List String :=
  ["single responsibility", "parameter", "cohesion", "coupling",
   "multiple operations", "violates", "separate functions",
   "passed together", "data class", "feature envy"]

/-- style_keywords in RefactoringProgressTracker._classify_issue. -/
def styleKeywords : List String :=
  ["naming", "comment", "formatting", "convention", "style",
   "redundant", "magic number", "variable name"]

/-- security_keywords in RefactoringProgressTracker._classify_issue. -/
def securityKeywords : List String :=
  ["security", "vulnerability", "injection", "hardcode",
   "password", "token", "unsafe"]

/-- performance_keywords in RefactoringProgressTracker._classify_issue. -/
def performanceKeywords : List String :=
  ["performance", "inefficient", "slow", "optimization",
   "memory", "loop", "algorithm"]

/-- RefactoringProgressTracker._classify_issue: the if/elif chain, applied to
the (already lower-cased) description. -/
def classifyIssue (description : String) : IssueCategory :=
  if containsAny description structuralKeywords then .structural
  else if containsAny description designKeywords then .design
  else if containsAny description styleKeywords then .style
  else if containsAny description securityKeywords then .security
  else if containsAny description performanceKeywords then .performance
  else .design

/-- The keyword tables in the order the if/elif chain of _classify_issue
consults them. -/
def orderedKeywordTable : List (List String × IssueCategory) :=
  [(structuralKeywords, .structural), (designKeywords, .design),
   (styleKeywords, .style), (securityKeywords, .security),
   (performanceKeywords, .performance)]

/-- The category of the first keyword table matching the description. -/
def firstMatch (description : String) :
    List (List String × IssueCategory) → Option IssueCategory
  | [] => none
  | (kws, c) :: rest =>
    if containsAny description kws then some c
    else firstMatch description rest

/-- An issue dict as the tracker reads it: only the description and severity
keys are consulted (issue.get with defaults); a missing key is none. -/
structure IssueD where
  description : Option String
  severity : Option String
deriving DecidableEq, Repr

/-- The per-category counters built by _categorize_issues. -/
structure CatCounts where
  structural : Nat
  design : Nat
  style : Nat
  security : Nat
  performance : Nat
deriving DecidableEq, Repr

/-- categories = \x7bcat: 0 for cat in IssueCategory\x7d. -/
def CatCounts.zero : CatCounts := ⟨0, 0, 0, 0, 0⟩

/-- categories[category] += 1. -/
def CatCounts.bump (c : CatCounts) : IssueCategory → CatCounts
  | .structural => { c with structural := c.structural + 1 }
  | .design => { c with design := c.design + 1 }
  | .style => { c with style := c.style + 1 }
  | .security => { c with security := c.security + 1 }
  | .performance => { c with performance := c.performance + 1 }

/-- The count stored for a category. -/
def CatCounts.get (c : CatCounts) : IssueCategory → Nat
  | .structural => c.structural
  | .design => c.design
  | .style => c.style
  | .security => c.security
  | .performance => c.performance

/-- RefactoringProgressTracker._categorize_issues: classify each issue's
lower-cased description (missing description defaults to the empty string)
and count per category. -/
def categorizeIssues (issues : List IssueD) : CatCounts :=
  issues.foldl
    (fun acc i => acc.bump (classifyIssue (i.description.getD "").toLower))
    CatCounts.zero

/-- StoppingCriteria (cli/enhanced_apply_fixes.py).  All int fields are
non-negative in every construction in the source, hence Nat. -/
structure StoppingCriteria where
  scoreThreshold : ℚ
  maxLowSeverityIssues : Nat
  maxIterations : Nat
  plateauIterations : Nat
  minImprovementPerIteration : ℚ
  acceptableIssueCategories : List String
deriving DecidableEq, Repr

/-- The dataclass defaults, with __post_init__ filling the acceptable set. -/
def defaultCriteria : StoppingCriteria :=
  { scoreThreshold := 85
    maxLowSeverityIssues := 3
    maxIterations := 8
    plateauIterations := 3
    minImprovementPerIteration := 1
    acceptableIssueCategories := ["style", "design"] }

/-- One entry of iteration_history: the dict passed to add_iteration (every
call site passes exactly the keys iteration, score and issues). -/
structure IterData where
  iteration : Nat
  score : ℚ
  issues : List IssueD
deriving DecidableEq, Repr

/-- RefactoringProgressTracker state. -/
structure Tracker where
  criteria : StoppingCriteria
  iterationHistory : List IterData
  issueTypeHistory : List CatCounts
  scoreHistory : List ℚ
deriving DecidableEq, Repr

/-- A tracker as __init__ leaves it. -/
def Tracker.init (criteria : StoppingCriteria) : Tracker :=
  ⟨criteria, [], [], []⟩

/-- RefactoringProgressTracker.add_iteration. -/
def addIteration (t : Tracker) (d : IterData) : Tracker :=
  { t with
    iterationHistory := t.iterationHistory ++ [d]
    issueTypeHistory := t.issueTypeHistory ++ [categorizeIssues d.issues]
    scoreHistory := t.scoreHistory ++ [d.score] }

/-- Python negative-index slice l[-n:] for n bigger than 0: the last n
elements (the whole list when n exceeds the length). -/
def lastN (n : Nat) (l : List α) : List α :=
  l.drop (l.length - n)

/-- The consecutive differences recent[i] - recent[i-1] for i in
range(1, len(recent)). -/
def improvements (l : List ℚ) : List ℚ :=
  List.zipWith (fun a b => a - b) l.tail l

/-- RefactoringProgressTracker._has_score_plateau. -/
def hasScorePlateau (t : Tracker) : Bool :=
  if t.scoreHistory.length < t.criteria.plateauIterations + 1 then false
  else
    (improvements (lastN (t.criteria.plateauIterations + 1) t.scoreHistory)).all
      (fun imp => imp < t.criteria.minImprovementPerIteration)

/-- RefactoringProgressTracker._has_diminishing_returns.  For a history of
length n at least 3 the loop over i in [n-2, n-1] (guarded by i bigger than 0)
collects exactly the two differences of the last three scores. -/
def hasDiminishingReturns (t : Tracker) : Bool :=
  if t.scoreHistory.length < 3 then false
  else (improvements (lastN 3 t.scoreHistory)).all (fun imp => imp < 1/2)

/-- The frozenset of names of categories with count bigger than 0 (the
signature _has_issue_cycling builds), as five membership flags. -/
structure CatSig where
  structural : Bool
  design : Bool
  style : Bool
  security : Bool
  performance : Bool
deriving DecidableEq, Repr

/-- sig = frozenset(cat.value for cat, count in categories.items() if count is
bigger than 0). -/
def sigOfCounts (c : CatCounts) : CatSig :=
  ⟨0 < c.structural, 0 < c.design, 0 < c.style, 0 < c.security,
   0 < c.performance⟩

/-- RefactoringProgressTracker._has_issue_cycling: len(set(signatures of the
last four entries)) at most 2. -/
def hasIssueCycling (t : Tracker) : Bool :=
  if t.issueTypeHistory.length < 4 then false
  else ((lastN 4 t.issueTypeHistory).map sigOfCounts).dedup.length ≤ 2

/-- The analysis dict _analyze_current_state returns on a non-empty history
(the no_data dict of the empty history carries none of these keys and is
modelled as Option.none of this structure). -/
structure Analysis where
  score : ℚ
  totalIssues : Nat
  onlyLowSeverity : Bool
  onlyAcceptableIssues : Bool
  scorePlateaued : Bool
  diminishingReturns : Bool
  issueCycling : Bool
  unacceptableIssues : Nat
deriving DecidableEq, Repr

/-- total_unacceptable: the counts of the categories whose value string is
not in criteria.acceptable_issue_categories, summed. -/
def totalUnacceptable (criteria : StoppingCriteria) (counts : CatCounts) : Nat :=
  (([.structural, .design, .style, .security, .performance] : List IssueCategory).filter
      (fun c => !(criteria.acceptableIssueCategories.contains c.value))).foldl
    (fun acc c => acc + counts.get c) 0

/-- RefactoringProgressTracker._analyze_current_state. -/
def analyzeCurrentState (t : Tracker) : Option Analysis :=
  match t.iterationHistory.getLast? with
  | none => none
  | some current =>
    let currentIssues := current.issues
    let currentScore := current.score
    let onlyLowSeverity :=
      currentIssues.all (fun i => i.severity.getD "medium" == "low")
    let currentCategories := categorizeIssues currentIssues
    let unacceptable := totalUnacceptable t.criteria currentCategories
    some
      { score := currentScore
        totalIssues := currentIssues.length
        onlyLowSeverity := onlyLowSeverity
        onlyAcceptableIssues := unacceptable ≤ t.criteria.maxLowSeverityIssues
        scorePlateaued := hasScorePlateau t
        diminishingReturns := hasDiminishingReturns t
        issueCycling := hasIssueCycling t
        unacceptableIssues := unacceptable }

/-- The stop reasons should_stop_refactoring can return (each stands for the
reason string built in the corresponding branch). -/
inductive StopReason where
  | thresholdReached
  | onlyLowSeverityLeft
  | scorePlateaued
  | maxIterationsReached
  | diminishingReturns
  | issueCycling
deriving DecidableEq, Repr

/-- The spec's name of each reason (section 4.4 of the spec). -/
def StopReason.specName : StopReason → String
  | .thresholdReached => "ThresholdReached"
  | .onlyLowSeverityLeft => "OnlyLowSeverity"
  | .scorePlateaued => "Plateau"
  | .maxIterationsReached => "MaxIterationsReached"
  | .diminishingReturns => "DiminishingReturns"
  | .issueCycling => "IssueCycling"

/-- The (should_stop, reason, analysis) tuple; reason none is the Continue
refactoring branch. -/
structure EvalResult where
  stop : Bool
  reason : Option StopReason
  analysis : Analysis
deriving DecidableEq, Repr

/-- RefactoringProgressTracker.should_stop_refactoring.  On the empty history
_analyze_current_state yields the no_data dict, and the first read
analysis[score] raises KeyError: modelled as none. -/
def shouldStopRefactoring (t : Tracker) : Option EvalResult :=
  match analyzeCurrentState t with
  | none => none
  | some a =>
    if t.criteria.scoreThreshold ≤ a.score ∧ a.onlyAcceptableIssues = true then
      some ⟨true, some .thresholdReached, a⟩
    else if a.onlyLowSeverity then some ⟨true, some .onlyLowSeverityLeft, a⟩
    else if a.scorePlateaued then some ⟨true, some .scorePlateaued, a⟩
    else if t.criteria.maxIterations ≤ t.iterationHistory.length then
      some ⟨true, some .maxIterationsReached, a⟩
    else if a.diminishingReturns then some ⟨true, some .diminishingReturns, a⟩
    else if a.issueCycling then some ⟨true, some .issueCycling, a⟩
    else some ⟨false, none, a⟩

/-- The method call as a state transformer on the tracker object: translating
should_stop_refactoring and _analyze_current_state statement by statement
writes only local variables, so the object state is returned unchanged. -/
def shouldStopRefactoringCall (t : Tracker) : Option EvalResult × Tracker :=
  (shouldStopRefactoring t, t)

section InteractiveLoop

variable {Code : Type} [DecidableEq Code]

/-- The collaborators and user inputs of
SmartFixApplicator._run_smart_interactive_mode, indexed by the iteration
number at which they are consulted:
getScore is _get_current_score (its try/except already yields a total value,
0 on failure); select is the outcome of _get_smart_issue_selection;
continueAnyway is the Continue refactoring anyway? prompt answering y;
fixer is _apply_selected_fixes; confirm is _confirm_changes; reanalyze is
_reanalyze_code (total, empty list on failure); askContinue is
_ask_continue. -/
structure Oracles (Code : Type) where
  getScore : Nat → Code → ℚ
  select : Nat → List IssueD → List IssueD
  continueAnyway : Nat → Bool
  fixer : Nat → Code → List IssueD → Code
  confirm : Nat → Bool
  reanalyze : Nat → Code → List IssueD
  askContinue : Nat → Bool

/-- The local variables of _run_smart_interactive_mode that the while loop
reads or writes. -/
structure LoopState (Code : Type) where
  currentCode : Code
  remainingIssues : List IssueD
  iteration : Nat
  tracker : Tracker
  totalFeedback : List (IssueD × Nat)
deriving DecidableEq

/-- The loop state at entry of the while loop. -/
def initLoopState (originalCode : Code) (issues : List IssueD)
    (criteria : StoppingCriteria) : LoopState Code :=
  { currentCode := originalCode
    remainingIssues := issues
    iteration := 0
    tracker := Tracker.init criteria
    totalFeedback := [] }

/-- What one execution of the while body does: break out, go round again, or
propagate the KeyError of should_stop_refactoring. -/
inductive StepOutcome (Code : Type) where
  | halt (st : LoopState Code)
  | next (st : LoopState Code)
  | err (st : LoopState Code)
deriving DecidableEq

/-- One execution of the while body of _run_smart_interactive_mode (the
caller has checked remaining_issues is non-empty). -/
def loopStep (O : Oracles Code) (st : LoopState Code) : StepOutcome Code :=
  let iter := st.iteration + 1
  let currentScore := O.getScore iter st.currentCode
  let tr := addIteration st.tracker
    ⟨iter, currentScore, st.remainingIssues⟩
  match shouldStopRefactoring tr with
  | none => .err { st with iteration := iter, tracker := tr }
  | some ev =>
    let st1 := { st with iteration := iter, tracker := tr }
    if ev.stop && !(O.continueAnyway iter) then .halt st1
    else
      let selectedIssues := O.select iter st1.remainingIssues
      if selectedIssues.isEmpty then .halt st1
      else
        let fixedCode := O.fixer iter st1.currentCode selectedIssues
        let st2 :=
          if fixedCode ≠ st1.currentCode then
            if O.confirm iter then
              { st1 with
                currentCode := fixedCode
                totalFeedback :=
                  st1.totalFeedback ++ selectedIssues.map (fun i => (i, iter))
                remainingIssues := O.reanalyze iter fixedCode }
            else st1
          else
            { st1 with
              remainingIssues :=
                st1.remainingIssues.filter
                  (fun i => !(selectedIssues.contains i)) }
        if !st2.remainingIssues.isEmpty && !ev.stop then
          if O.askContinue iter then .next st2 else .halt st2
        else .next st2

/-- The outcome of running the while loop under bounded fuel: finished means
the Python loop exited (its condition failed or a break ran), outOfFuel that
it was still iterating when the fuel ran out, errored that a KeyError
escaped. -/
inductive LoopResult (Code : Type) where
  | finished (st : LoopState Code)
  | outOfFuel (st : LoopState Code)
  | errored (st : LoopState Code)
deriving DecidableEq

/-- The while loop of _run_smart_interactive_mode, one fuel unit per
iteration of the body. -/
def runLoop (O : Oracles Code) : Nat → LoopState Code → LoopResult Code
  | 0, st => if st.remainingIssues.isEmpty then .finished st else .outOfFuel st
  | fuel + 1, st =>
    if st.remainingIssues.isEmpty then .finished st
    else
      match loopStep O st with
      | .halt st1 => .finished st1
      | .err st1 => .errored st1
      | .next st1 => runLoop O fuel st1

/-- Whether the Python loop has exited. -/
def LoopResult.isFinished : LoopResult Code → Bool
  | .finished _ => true
  | .outOfFuel _ => false
  | .errored _ => false

/-- The loop state a result carries. -/
def LoopResult.state : LoopResult Code → LoopState Code
  | .finished st => st
  | .outOfFuel st => st
  | .errored st => st

end InteractiveLoop

end Cli

/-- A raw finding dict as both agents' from_raw_issue and the static
classifier read it; a missing key is none. -/
structure RawIssue where
  description : Option String
  issue : Option String
  suggestion : Option String
  line : Option Nat
  severity : Option String
  confidence : Option ℚ
  rule : Option String
deriving DecidableEq, Repr

/-- description = issue.get(description, issue.get(issue, )). -/
def RawIssue.desc (i : RawIssue) : String :=
  i.description.getD (i.issue.getD "")

namespace Comp

/-- agents/comprehensive_analysis_agent.py IssueCategory. -/
inductive IssueCategory where
  | quality
  | security
  | codeSmell
  | staticAnalysis
deriving DecidableEq, Repr

/-- IssueCategory.value strings. -/
def IssueCategory.value : IssueCategory → String
  | .quality => "quality"
  | .security => "security"
  | .codeSmell => "code_smell"
  | .staticAnalysis => "static"

/-- agents/comprehensive_analysis_agent.py CategorizedIssue.  issueId holds
the content string handed to md5 (see the file header). -/
structure CategorizedIssue where
  line : Nat
  description : String
  suggestion : String
  severity : String
  confidence : ℚ
  category : IssueCategory
  sourceAgent : String
  issueId : String
deriving DecidableEq, Repr

/-- CategorizedIssue.from_raw_issue of the comprehensive agent: the id
content is line|description|category.value. -/
def fromRawIssue (issue : RawIssue) (category : IssueCategory)
    (sourceAgent : String) : CategorizedIssue :=
  let description := issue.desc
  let suggestion := issue.suggestion.getD ""
  let content :=
    toString (issue.line.getD 0) ++ "|" ++ description ++ "|" ++ category.value
  { line := issue.line.getD 0
    description := description
    suggestion := suggestion
    severity := issue.severity.getD "medium"
    confidence := issue.confidence.getD (4/5)
    category := category
    sourceAgent := sourceAgent
    issueId := content }

/-- security_patterns in _classify_static_issue. -/
def securityPatterns : List String :=
  ["security", "vulnerability", "injection", "xss", "csrf", "hardcode",
   "password", "secret", "token", "key", "crypto", "hash", "ssl", "tls",
   "sql injection", "command injection", "path traversal", "eval", "exec",
   "unsafe", "blacklist", "whitelist", "sanitize", "escape"]

/-- code_smell_patterns in _classify_static_issue. -/
def codeSmellPatterns : List String :=
  ["complexity", "too complex", "long method", "long function", "long class",
   "parameter list", "too many parameters", "duplicate", "duplicated",
   "dead code", "unused", "magic number", "magic string", "god class",
   "large class", "feature envy", "data class", "lazy class",
   "long parameter list", "primitive obsession", "switch statement",
   "cyclomatic", "nesting", "nested", "cognitive", "maintainability",
   "refactor", "extract method", "extract class", "rename", "move method",
   "naming", "convention", "style", "format"]

/-- The rule fragments of the elif rule_id branch. -/
def securityRuleFragments : List String :=
  ["hardcoded", "password", "key", "token", "crypto"]

/-- The rule fragments of the code-smell rule check. -/
def smellRuleFragments : List String :=
  ["complexity", "too-many", "duplicate", "unused"]

/-- The lower-cased rule id read by _classify_static_issue. -/
def staticRuleId (issue : RawIssue) : String :=
  (issue.rule.getD "").toLower

/-- full_text of _classify_static_issue: the lower-cased description (the
issue key first, falling back to description), suggestion and rule id joined
by blanks. -/
def staticFullText (issue : RawIssue) : String :=
  (issue.issue.getD (issue.description.getD "")).toLower ++ " " ++
    (issue.suggestion.getD "").toLower ++ " " ++ staticRuleId issue

/-- ComprehensiveAnalysisAgent._classify_static_issue.  The quality_patterns
list of the source is never consulted by the control flow and the
fall-through returns QUALITY. -/
def classifyStaticIssue (issue : RawIssue) : IssueCategory :=
  let ruleId := staticRuleId issue
  let fullText := staticFullText issue
  if containsAny fullText securityPatterns then .security
  else if containsAny fullText codeSmellPatterns then .codeSmell
  else if ruleId ≠ "" then
    if containsAny ruleId securityRuleFragments then .security
    else if containsAny ruleId smellRuleFragments then .codeSmell
    else .quality
  else .quality

/-- An issue dict as _calculate_overall_score reads it.  The function takes
the dict built by _organize_by_category, which groups the issue dicts under
the key issue.category.value; since the category weight of a group is
looked up from exactly that key, the grouped dict is modelled by the
flattened list with each issue carrying its own category string (the sums
below are invariant under the grouping). -/
structure ScoredIssue where
  category : String
  severity : String
  confidence : ℚ
deriving DecidableEq, Repr

/-- category_weights.get(category, 1.0). -/
def categoryWeight (category : String) : ℚ :=
  if category == "security" then 3
  else if category == "quality" then 2
  else if category == "code_smell" then 3/2
  else if category == "static" then 1
  else 1

/-- severity_weights.get(issue.get(severity, medium), 2.0). -/
def severityWeight (severity : String) : ℚ :=
  if severity == "high" then 3
  else if severity == "medium" then 2
  else if severity == "low" then 1
  else 2

/-- penalty = cat_weight * sev_weight * confidence. -/
def penalty (i : ScoredIssue) : ℚ :=
  categoryWeight i.category * severityWeight i.severity * i.confidence

/-- ComprehensiveAnalysisAgent._calculate_overall_score: the nested loops
accumulate total_penalty and total_issues, then the penalty is averaged,
scaled by 10, capped at 100 and subtracted. -/
def calculateOverallScore (issues : List ScoredIssue) : ℚ :=
  if issues.isEmpty then 100
  else
    let acc := issues.foldl
      (fun (acc : ℚ × Nat) i => (acc.1 + penalty i, acc.2 + 1)) (0, 0)
    let totalPenalty := acc.1
    let totalIssues := acc.2
    if 0 < totalIssues then
      let avgPenalty := totalPenalty / totalIssues
      let maxPenalty := min (avgPenalty * 10) 100
      max 0 (100 - maxPenalty)
    else max 0 (100 - 0)

/-- The sum of the per-issue penalties. -/
def penaltySum (issues : List ScoredIssue) : ℚ :=
  (issues.map penalty).sum

/-- One step of the loop of _deduplicate_issues: a new id is appended, an
existing entry is replaced exactly when the incoming confidence is strictly
higher. -/
def insertDedup (m : List (String × CategorizedIssue))
    (issue : CategorizedIssue) : List (String × CategorizedIssue) :=
  match findEntry issue.issueId m with
  | none => m ++ [(issue.issueId, issue)]
  | some existing =>
    if existing.confidence < issue.confidence then
      m.map (fun e => if e.1 = issue.issueId then (e.1, issue) else e)
    else m

/-- ComprehensiveAnalysisAgent._deduplicate_issues. -/
def deduplicateIssues (issues : List CategorizedIssue) :
    List CategorizedIssue :=
  (issues.foldl insertDedup []).map (fun e => e.2)

/-- The entry the dedup map holds for an id after processing the list. -/
def keptFor (issues : List CategorizedIssue) (id : String) :
    Option CategorizedIssue :=
  findEntry id (issues.foldl insertDedup [])

/-- Modelled from the spec (section 4.1): within one merge call keep the
higher-confidence finding, ties keep the first seen.  Stated as a left fold
of that rule over the findings sharing the id, for comparison with keptFor. -/
def bestOf (best : Option CategorizedIssue) (x : CategorizedIssue) :
    Option CategorizedIssue :=
  match best with
  | none => some x
  | some b => if b.confidence < x.confidence then some x else some b

end Comp

namespace Iter

/-- agents/iterative_analysis_agent.py CategorizedIssue (same fields plus
iteration_found); issueId is the md5 content line|description|suggestion. -/
structure CategorizedIssue where
  line : Nat
  description : String
  suggestion : String
  severity : String
  confidence : ℚ
  category : Comp.IssueCategory
  sourceAgent : String
  iterationFound : Nat
  issueId : String
deriving DecidableEq, Repr

/-- CategorizedIssue.from_raw_issue of the iterative agent. -/
def fromRawIssue (issue : RawIssue) (category : Comp.IssueCategory)
    (sourceAgent : String) (iteration : Nat) : CategorizedIssue :=
  let description := issue.desc
  let suggestion := issue.suggestion.getD ""
  let content :=
    toString (issue.line.getD 0) ++ "|" ++ description ++ "|" ++ suggestion
  { line := issue.line.getD 0
    description := description
    suggestion := suggestion
    severity := issue.severity.getD "medium"
    confidence := issue.confidence.getD (4/5)
    category := category
    sourceAgent := sourceAgent
    iterationFound := iteration
    issueId := content }

/-- One step of the dedup loop at the end of _run_single_iteration: an id
already present is never replaced. -/
def insertFirstSeen (m : List (String × CategorizedIssue))
    (issue : CategorizedIssue) : List (String × CategorizedIssue) :=
  match findEntry issue.issueId m with
  | none => m ++ [(issue.issueId, issue)]
  | some _ => m

/-- The within-iteration dedup of IterativeAnalysisAgent._run_single_iteration. -/
def dedupWithinIteration (issues : List CategorizedIssue) :
    List CategorizedIssue :=
  (issues.foldl insertFirstSeen []).map (fun e => e.2)

/-- The entry the per-iteration dict holds for an id. -/
def keptFor (issues : List CategorizedIssue) (id : String) :
    Option CategorizedIssue :=
  findEntry id (issues.foldl insertFirstSeen [])

end Iter

/-! ## Concrete fixtures for counterexamples and witnesses -/

namespace Cli

/-- A lower-cased description holding both a structural keyword (complexity)
and a security keyword (injection). -/
def mixedDescription : String := "injection complexity"

/-- A tracker that has recorded exactly one iteration, whose snapshot has
zero issues and score 0. -/
def zeroIssueTracker : Tracker :=
  addIteration (Tracker.init defaultCriteria) ⟨1, 0, []⟩

/-- An issue dict whose description classifies as security and whose
severity is high. -/
def tokenIssue : IssueD := ⟨some "token", some "high"⟩

/-- Oracles for the loop counterexample: the analysis score stays 0, the
user selects every issue, answers y to Continue refactoring anyway?, the
fixer always changes the code, the user confirms, and re-analysis reports
the same issue again. -/
def pushyOracles : Oracles String :=
  { getScore := fun _ _ => 0
    select := fun _ issues => issues
    continueAnyway := fun _ => true
    fixer := fun _ c _ => c ++ "x"
    confirm := fun _ => true
    reanalyze := fun _ _ => [tokenIssue]
    askContinue := fun _ => true }

/-- Oracles of a user who declines every prompt. -/
def decliningOracles : Oracles String :=
  { getScore := fun _ _ => 0
    select := fun _ issues => issues
    continueAnyway := fun _ => false
    fixer := fun _ c _ => c
    confirm := fun _ => false
    reanalyze := fun _ _ => []
    askContinue := fun _ => false }

/-- Stopping criteria with max_iterations = 1 (StoppingCriteria(max_iterations=1)). -/
def oneIterationCriteria : StoppingCriteria :=
  { defaultCriteria with maxIterations := 1 }

end Cli

namespace Comp

/-- A raw finding with line, description and suggestion all present. -/
def rawFinding : RawIssue :=
  { description := some "sql injection risk"
    issue := none
    suggestion := some "use parameterized queries"
    line := some 5
    severity := some "high"
    confidence := none
    rule := none }

end Comp

namespace Iter

/-- Two findings of one iteration sharing an id, the first with the lower
confidence. -/
def dupLowConfidence : CategorizedIssue :=
  fromRawIssue
    { description := some "d", issue := none, suggestion := some "s"
      line := some 5, severity := some "high", confidence := some (1/2)
      rule := none }
    .quality "quality_agent" 1

/-- The second finding: same line, description and suggestion, higher
confidence. -/
def dupHighConfidence : CategorizedIssue :=
  fromRawIssue
    { description := some "d", issue := none, suggestion := some "s"
      line := some 5, severity := some "high", confidence := some (9/10)
      rule := none }
    .staticAnalysis "static_analysis" 1

end Iter

/-! ## Theorems -/

namespace Cli

/-- Helper: the all-below-bound test on consecutive improvements is the
chain relation on the window itself. -/
theorem improvements_all_iff_chain (m : ℚ) :
    ∀ l : List ℚ,
      ((improvements l).all (fun imp => imp < m) = true ↔
        l.Chain' (fun a b => b - a < m))
  | [] => by simp [improvements]
  | [a] => by simp [improvements]
  | a :: b :: t => by
    have ih := improvements_all_iff_chain m (b :: t)
    simp only [improvements, List.tail_cons, List.zipWith_cons_cons,
      List.all_cons, List.chain'_cons, Bool.and_eq_true, decide_eq_true_eq]
      at ih ⊢
    exact and_congr Iff.rfl ih

/-- C1 counterexample: a description holding the security keyword injection
is classified structural, not security, because the structural keyword
complexity is tested first. -/
theorem classify_security_not_first :
    containsAny mixedDescription securityKeywords = true ∧
      classifyIssue mixedDescription = IssueCategory.structural ∧
      IssueCategory.structural ≠ IssueCategory.security := by
  refine ⟨by decide, by decide, by decide⟩

/-- C1 (amended): _classify_issue is the first-match over its keyword
tables in the order structural, design, style, security, performance, with
design as the fall-through; and _classify_static_issue of the comprehensive
agent does test its security patterns first: any match on the combined
lower-cased text yields the security category. -/
theorem classify_first_match_order :
    (∀ d, classifyIssue d = (firstMatch d orderedKeywordTable).getD .design) ∧
      (∀ i : RawIssue, containsAny (Comp.staticFullText i) Comp.securityPatterns = true →
        Comp.classifyStaticIssue i = .security) := by
  constructor
  · intro d
    simp only [classifyIssue, orderedKeywordTable, firstMatch]
    split_ifs <;> rfl
  · intro i h
    unfold Comp.classifyStaticIssue
    simp [h]

/-- C5: on a tracker with empty history, should_stop_refactoring reads the
score key of the no_data dict and raises KeyError (modelled none) instead of
reporting ACTIVE. -/
theorem emptyHistory_evaluation_raises :
    shouldStopRefactoring (Tracker.init defaultCriteria) = none := rfl

/-- C4 counterexample: with one recorded zero-issue snapshot the evaluation
stops with reason OnlyLowSeverity, not NoIssues. -/
theorem zeroIssues_reason_not_noIssues :
    ((shouldStopRefactoring zeroIssueTracker).map
        (fun e => (e.stop, e.reason.map StopReason.specName))) =
      some (true, some "OnlyLowSeverity") ∧
      "OnlyLowSeverity" ≠ "NoIssues" := by
  refine ⟨by decide, by decide⟩

/-- C4 (amended): the chain has no NoIssues check; a recorded state whose
current snapshot has zero issues always stops, with reason ThresholdReached
when that check fires and OnlyLowSeverity otherwise (the empty severity list
passes the all-low test), never a later reason. -/
theorem zeroIssues_stops_threshold_or_onlyLow :
    ∀ (t : Tracker) (cur : IterData),
      t.iterationHistory.getLast? = some cur → cur.issues = [] →
      ∃ a : Analysis,
        shouldStopRefactoring t = some ⟨true, some .thresholdReached, a⟩ ∨
          shouldStopRefactoring t = some ⟨true, some .onlyLowSeverityLeft, a⟩ := by
  intro t cur hlast hzero
  unfold shouldStopRefactoring analyzeCurrentState
  rw [hlast]
  simp only [hzero, List.all_nil]
  split_ifs with h1
  · exact ⟨_, Or.inl rfl⟩
  · exact ⟨_, Or.inr rfl⟩

/-- C4 amended witness at the concrete zero-issue tracker. -/
theorem zeroIssues_stops_witness :
    ∃ a : Analysis,
      shouldStopRefactoring zeroIssueTracker =
          some ⟨true, some .thresholdReached, a⟩ ∨
        shouldStopRefactoring zeroIssueTracker =
          some ⟨true, some .onlyLowSeverityLeft, a⟩ :=
  zeroIssues_stops_threshold_or_onlyLow zeroIssueTracker ⟨1, 0, []⟩
    (by decide) rfl

/-- C9: the plateau signal fires exactly when plateau_iterations + 1 scores
have been recorded and every consecutive improvement across the trailing
window is strictly below min_improvement_per_iteration; with fewer recorded
scores it never fires. -/
theorem plateau_characterization :
    ∀ t : Tracker,
      hasScorePlateau t = true ↔
        (t.criteria.plateauIterations + 1 ≤ t.scoreHistory.length ∧
          (lastN (t.criteria.plateauIterations + 1) t.scoreHistory).Chain'
            (fun a b => b - a < t.criteria.minImprovementPerIteration)) := by
  intro t
  unfold hasScorePlateau
  split_ifs with h
  · simp only [Bool.false_eq_true, false_iff]
    intro hc
    omega
  · rw [improvements_all_iff_chain]
    have hle : t.criteria.plateauIterations + 1 ≤ t.scoreHistory.length := by
      omega
    simp [hle]

/-- C10: the evaluation is a pure read: it returns the tracker object
unchanged, and evaluating again on that returned state yields the same
result. -/
theorem evaluate_stable :
    ∀ t : Tracker,
      (shouldStopRefactoringCall t).2 = t ∧
        (shouldStopRefactoringCall ((shouldStopRefactoringCall t).2)).1 =
          (shouldStopRefactoringCall t).1 :=
  fun _ => ⟨rfl, rfl⟩

end Cli

namespace Comp

/-- Helper: the accumulator of the scoring loop is the penalty sum and the
issue count. -/
theorem foldl_penalty_acc :
    ∀ (issues : List ScoredIssue) (a : ℚ) (n : Nat),
      issues.foldl (fun (acc : ℚ × Nat) i => (acc.1 + penalty i, acc.2 + 1))
          (a, n) =
        (a + penaltySum issues, n + issues.length) := by
  intro issues
  induction issues with
  | nil => intro a n; simp [penaltySum]
  | cons x xs ih =>
    intro a n
    simp only [List.foldl_cons, ih, penaltySum, List.map_cons, List.sum_cons,
      List.length_cons, Prod.mk.injEq]
    exact ⟨by ring, by omega⟩

/-- Helper: the closed form of _calculate_overall_score: the average penalty
scaled by ten, capped at 100, subtracted from 100, floored at 0; 100 on the
empty set. -/
theorem overallScore_closedForm (issues : List ScoredIssue) :
    calculateOverallScore issues =
      if issues.isEmpty then (100 : ℚ)
      else
        max 0 (100 - min (penaltySum issues / issues.length * 10) 100) := by
  unfold calculateOverallScore
  cases issues with
  | nil => simp
  | cons x xs =>
    simp only [List.isEmpty_cons, Bool.false_eq_true, if_false,
      foldl_penalty_acc, zero_add, Nat.zero_add, List.length_cons]
    have : 0 < xs.length + 1 := Nat.succ_pos _
    simp [this]

/-- C3 counterexample: on the one-issue set static, low, confidence 1 the
code computes 90, while the claimed capped-sum formula gives 99. -/
theorem score_formula_cex :
    calculateOverallScore [⟨"static", "low", 1⟩] = 90 ∧
      (100 - min (penaltySum [⟨"static", "low", 1⟩]) 100 : ℚ) = 99 ∧
      (90 : ℚ) ≠ 99 := by
  refine ⟨?_, ?_, by norm_num⟩
  · norm_num +decide [calculateOverallScore, penalty, categoryWeight,
      severityWeight]
  · norm_num +decide [penaltySum, penalty, categoryWeight, severityWeight]

/-- C3 (amended): the overall score is 100 minus the average per-issue
penalty (categoryWeight x severityWeight x confidence) scaled by 10 and
capped at 100, floored at 0; an empty issue set yields exactly 100.  The
total penalty is not used uncapped: it is averaged over the issue count. -/
theorem overallScore_formula :
    ∀ issues : List ScoredIssue,
      calculateOverallScore issues =
        if issues.isEmpty then (100 : ℚ)
        else
          max 0 (100 - min (penaltySum issues / issues.length * 10) 100) :=
  overallScore_closedForm

/-- C2 counterexample: adding the below-average issue static, low,
confidence 1/10 to the set holding security, high, confidence 1 raises the
score from 10 to 54.5. -/
theorem score_not_monotone :
    calculateOverallScore [⟨"security", "high", 1⟩] <
      calculateOverallScore
        [⟨"static", "low", 1/10⟩, ⟨"security", "high", 1⟩] := by
  norm_num +decide [calculateOverallScore, penalty, categoryWeight,
    severityWeight]

/-- C2 (amended): adding an issue does not increase the score only under the
proviso that its penalty is non-negative and at least the current average
penalty (penaltySum S at most penalty x times the size of S); without the
proviso a below-average issue can strictly raise the score. -/
theorem score_monotone_above_average :
    ∀ (S : List ScoredIssue) (x : ScoredIssue),
      0 ≤ penalty x → penaltySum S ≤ penalty x * S.length →
      calculateOverallScore (x :: S) ≤ calculateOverallScore S := by
  intro S x hpos havg
  rw [overallScore_closedForm, overallScore_closedForm]
  cases S with
  | nil =>
    simp only [List.isEmpty_nil, if_true, List.isEmpty_cons,
      Bool.false_eq_true, if_false]
    refine max_le ?_ ?_
    · norm_num
    · have h0 : (0 : ℚ) ≤ min (penaltySum [x] / [x].length * 10) 100 := by
        refine le_min ?_ (by norm_num)
        have : penaltySum [x] = penalty x := by simp [penaltySum]
        rw [this]
        positivity
      linarith
  | cons y ys =>
    simp only [List.isEmpty_cons, Bool.false_eq_true, if_false]
    refine max_le_max le_rfl (sub_le_sub_left ?_ _)
    refine min_le_min (mul_le_mul_of_nonneg_right ?_ (by norm_num)) le_rfl
    have hn : (0 : ℚ) < ((y :: ys).length : ℚ) := by
      push_cast [List.length_cons]
      positivity
    have hn1 : (0 : ℚ) < ((x :: y :: ys).length : ℚ) := by
      push_cast [List.length_cons]
      positivity
    rw [div_le_div_iff₀ hn hn1]
    have hsum : penaltySum (x :: y :: ys) = penalty x + penaltySum (y :: ys) := by
      simp [penaltySum]
    have hlen : ((x :: y :: ys).length : ℚ) = ((y :: ys).length : ℚ) + 1 := by
      push_cast [List.length_cons]
      ring
    rw [hsum, hlen]
    have havg2 : penaltySum (y :: ys) ≤ penalty x * ((y :: ys).length : ℚ) :=
      havg
    nlinarith [havg2]

/-- C2 amended witness: adding a second copy of the single maximal issue
keeps the score at 10. -/
theorem score_monotone_witness :
    calculateOverallScore
        [⟨"security", "high", 1⟩, ⟨"security", "high", 1⟩] ≤
      calculateOverallScore [⟨"security", "high", 1⟩] :=
  score_monotone_above_average [⟨"security", "high", 1⟩] ⟨"security", "high", 1⟩
    (by norm_num +decide [penalty, categoryWeight, severityWeight])
    (by norm_num +decide [penaltySum, penalty, categoryWeight, severityWeight])

end Comp

/-- Helper: looking up after appending one fresh entry at the end of the
dict. -/
theorem findEntry_append_single (id k : String) (v : α)
    (m : List (String × α)) :
    findEntry id (m ++ [(k, v)]) =
      match findEntry id m with
      | some b => some b
      | none => if k = id then some v else none := by
  induction m with
  | nil => rfl
  | cons e rest ih =>
    obtain ⟨k', v'⟩ := e
    by_cases h : k' = id
    · simp [findEntry, h]
    · simp only [List.cons_append, findEntry, if_neg h]
      exact ih

/-- Helper: looking up after replacing the value stored under one key. -/
theorem findEntry_map_replace (id k : String) (x : α)
    (m : List (String × α)) :
    findEntry id (m.map (fun e => if e.1 = k then (e.1, x) else e)) =
      if k = id then (findEntry id m).map (fun _ => x)
      else findEntry id m := by
  induction m with
  | nil => by_cases hk : k = id <;> simp [findEntry, hk]
  | cons e rest ih =>
    obtain ⟨k', v'⟩ := e
    simp only [List.map_cons]
    by_cases h1 : k' = k
    · subst h1
      rw [if_pos rfl]
      by_cases h2 : k' = id
      · subst h2
        simp [findEntry, ih]
      · simp [findEntry, h2, ih]
    · rw [if_neg h1]
      by_cases h2 : k' = id
      · subst h2
        have hk : ¬(k = k') := fun hc => h1 hc.symm
        simp [findEntry, hk]
      · simp [findEntry, h2, ih]

namespace Comp

/-- Helper: what one insertion step of _deduplicate_issues stores under an
id: for the issue's own id the higher-confidence-or-first rule, every other
id untouched. -/
theorem findEntry_insertDedup (id : String)
    (m : List (String × CategorizedIssue)) (a : CategorizedIssue) :
    findEntry id (insertDedup m a) =
      if a.issueId = id then bestOf (findEntry id m) a
      else findEntry id m := by
  unfold insertDedup
  cases hfind : findEntry a.issueId m with
  | none =>
    rw [findEntry_append_single]
    by_cases h : a.issueId = id
    · subst h
      rw [hfind]
      simp [bestOf]
    · simp only [if_neg h]
      cases hm : findEntry id m with
      | none => simp [h]
      | some b => rfl
  | some ex =>
    by_cases hc : ex.confidence < a.confidence
    · simp only [if_pos hc]
      rw [findEntry_map_replace]
      by_cases h : a.issueId = id
      · subst h
        rw [hfind]
        simp [bestOf, hc]
      · simp [h]
    · simp only [if_neg hc]
      by_cases h : a.issueId = id
      · subst h
        rw [hfind]
        simp [bestOf, hc]
      · simp [h]

/-- Helper: the dedup fold computes, per id, the left fold of the keep-best
rule over the findings carrying that id, in input order. -/
theorem dedupFold_keeps_best (id : String) :
    ∀ (l : List CategorizedIssue) (m : List (String × CategorizedIssue)),
      findEntry id (l.foldl insertDedup m) =
        (l.filter (fun x => decide (x.issueId = id))).foldl bestOf
          (findEntry id m) := by
  intro l
  induction l with
  | nil => intro m; rfl
  | cons a l ih =>
    intro m
    simp only [List.foldl_cons, List.filter_cons]
    rw [ih, findEntry_insertDedup]
    by_cases h : a.issueId = id
    · simp [h]
    · simp [h]

end Comp

namespace Iter

/-- Helper: one insertion step of the within-iteration dedup never replaces
an entry. -/
theorem findEntry_insertFirstSeen (id : String)
    (m : List (String × CategorizedIssue)) (a : CategorizedIssue) :
    findEntry id (insertFirstSeen m a) =
      match findEntry id m with
      | some v => some v
      | none => if a.issueId = id then some a else none := by
  unfold insertFirstSeen
  cases hfind : findEntry a.issueId m with
  | none =>
    rw [findEntry_append_single]
    cases hm : findEntry id m with
    | none => rfl
    | some b => rfl
  | some ex =>
    cases hm : findEntry id m with
    | some v => simp [hm]
    | none =>
      by_cases h : a.issueId = id
      · subst h
        rw [hm] at hfind
        cases hfind
      · simp [hm, h]

/-- Helper: the per-iteration dedup keeps, per id, exactly the first finding
carrying that id. -/
theorem dedupFold_keeps_first (id : String) :
    ∀ (l : List CategorizedIssue) (m : List (String × CategorizedIssue)),
      findEntry id (l.foldl insertFirstSeen m) =
        match findEntry id m with
        | some v => some v
        | none => (l.filter (fun x => decide (x.issueId = id))).head? := by
  intro l
  induction l with
  | nil =>
    intro m
    cases hm : findEntry id m with
    | none => simp [hm]
    | some v => simp [hm]
  | cons a l ih =>
    intro m
    simp only [List.foldl_cons, List.filter_cons]
    rw [ih, findEntry_insertFirstSeen]
    cases hm : findEntry id m with
    | some v => rfl
    | none =>
      by_cases h : a.issueId = id
      · simp [h]
      · simp [h]

end Iter

/-- C8 counterexample: within one iteration of the iterative agent, two
findings sharing an id keep the first-seen one even though the second has
strictly higher confidence. -/
theorem iterDedup_drops_higher_confidence :
    Iter.keptFor [Iter.dupLowConfidence, Iter.dupHighConfidence]
        Iter.dupLowConfidence.issueId = some Iter.dupLowConfidence ∧
      Iter.dupHighConfidence.issueId = Iter.dupLowConfidence.issueId ∧
      Iter.dupLowConfidence.confidence < Iter.dupHighConfidence.confidence := by
  refine ⟨rfl, rfl, ?_⟩
  norm_num [Iter.dupLowConfidence, Iter.dupHighConfidence, Iter.fromRawIssue]

/-- C8 (amended): in the comprehensive agent's merge the entry kept per id
is the left fold of the keep-strictly-higher-confidence rule (ties keep the
first seen) over the findings with that id; the iterative agent's
within-iteration dedup instead always keeps the first-seen finding,
regardless of confidence. -/
theorem dedup_keep_rules :
    (∀ (issues : List Comp.CategorizedIssue) (id : String),
      Comp.keptFor issues id =
        (issues.filter (fun x => decide (x.issueId = id))).foldl
          Comp.bestOf none) ∧
      (∀ (issues : List Iter.CategorizedIssue) (id : String),
        Iter.keptFor issues id =
          (issues.filter (fun x => decide (x.issueId = id))).head?) := by
  constructor
  · intro issues id
    unfold Comp.keptFor
    rw [Comp.dedupFold_keeps_best]
    rfl
  · intro issues id
    unfold Iter.keptFor
    rw [Iter.dedupFold_keeps_first]
    rfl

/-- C7 counterexample: in the comprehensive agent two raw findings with the
same line, description and suggestion get different ids when reported under
different categories. -/
theorem issueId_depends_on_category :
    (Comp.fromRawIssue Comp.rawFinding .quality "quality_agent").issueId ≠
      (Comp.fromRawIssue Comp.rawFinding .security "security_agent").issueId := by
  decide

/-- C7 (amended): in the iterative agent the id is a pure function of
(line, description, suggestion), independent of category, source agent and
iteration; in the comprehensive agent the id is a pure function of
(line, description, category): independent of source agent, suggestion and
iteration, but not of category. -/
theorem issueId_content_function :
    (∀ (r₁ r₂ : RawIssue) (c₁ c₂ : Comp.IssueCategory) (a₁ a₂ : String)
        (n₁ n₂ : Nat),
      r₁.line.getD 0 = r₂.line.getD 0 → r₁.desc = r₂.desc →
      r₁.suggestion.getD "" = r₂.suggestion.getD "" →
      (Iter.fromRawIssue r₁ c₁ a₁ n₁).issueId =
        (Iter.fromRawIssue r₂ c₂ a₂ n₂).issueId) ∧
      (∀ (r₁ r₂ : RawIssue) (c : Comp.IssueCategory) (a₁ a₂ : String),
        r₁.line.getD 0 = r₂.line.getD 0 → r₁.desc = r₂.desc →
        (Comp.fromRawIssue r₁ c a₁).issueId =
          (Comp.fromRawIssue r₂ c a₂).issueId) := by
  constructor
  · intro r₁ r₂ c₁ c₂ a₁ a₂ n₁ n₂ h1 h2 h3
    simp only [Iter.fromRawIssue]
    rw [h1, h2, h3]
  · intro r₁ r₂ c a₁ a₂ h1 h2
    simp only [Comp.fromRawIssue]
    rw [h1, h2]

namespace Cli

/-- Helper: after add_iteration the current snapshot is the one just
recorded. -/
theorem addIteration_getLast (t : Tracker) (d : IterData) :
    (addIteration t d).iterationHistory.getLast? = some d := by
  simp [addIteration, List.getLast?_append_cons]

/-- Helper: on the non-empty history produced by add_iteration the
evaluation returns a result instead of raising. -/
theorem shouldStop_after_add (t : Tracker) (d : IterData) :
    ∃ ev, shouldStopRefactoring (addIteration t d) = some ev := by
  unfold shouldStopRefactoring analyzeCurrentState
  rw [addIteration_getLast]
  dsimp only
  split_ifs <;> exact ⟨_, rfl⟩

/-- Helper: once the recorded history has reached max_iterations, every
branch that returns reports stop (the fall-through Continue branch is
guarded by the iteration cap). -/
theorem stop_at_cap (t : Tracker) (d : IterData)
    (hcap : t.criteria.maxIterations ≤ t.iterationHistory.length + 1) :
    ∀ ev, shouldStopRefactoring (addIteration t d) = some ev →
      ev.stop = true := by
  unfold shouldStopRefactoring analyzeCurrentState
  rw [addIteration_getLast]
  dsimp only
  intro ev
  split_ifs with h1 h2 h3 h4 h5 h6 <;> intro hev <;> cases hev <;> try rfl
  exfalso
  apply h4
  simp only [addIteration, List.length_append, List.length_cons,
    List.length_nil]
  omega

end Cli

end CodeMentor

namespace CodeMentor

namespace Cli

section InteractiveLoopProofs

variable {Code : Type} [DecidableEq Code]

/-- Helper: add_iteration grows the history by exactly one entry. -/
theorem addIteration_length (t : Tracker) (d : IterData) :
    (addIteration t d).iterationHistory.length =
      t.iterationHistory.length + 1 := by
  simp [addIteration]

/-- Helper: when the user declines the continue-anyway prompt, one body
execution either breaks out of the loop or goes round having recorded one
more iteration while still strictly under the iteration cap. -/
theorem loopStep_halt_or_next (O : Oracles Code)
    (hA : ∀ i, O.continueAnyway i = false) (st : LoopState Code) :
    (∃ st1, loopStep O st = .halt st1) ∨
      (∃ st1, loopStep O st = .next st1 ∧
        st1.tracker.criteria = st.tracker.criteria ∧
        st1.tracker.iterationHistory.length =
          st.tracker.iterationHistory.length + 1 ∧
        st.tracker.iterationHistory.length + 1 <
          st.tracker.criteria.maxIterations) := by
  obtain ⟨ev, hev⟩ := shouldStop_after_add st.tracker
    ⟨st.iteration + 1, O.getScore (st.iteration + 1) st.currentCode,
      st.remainingIssues⟩
  unfold loopStep
  dsimp only
  rw [hev, hA (st.iteration + 1)]
  dsimp only
  by_cases hstop : ev.stop = true
  · left
    simp only [hstop, Bool.not_false, Bool.and_true, if_true]
    exact ⟨_, rfl⟩
  · have hstop' : ev.stop = false := by
      revert hstop; cases ev.stop <;> simp
    have hlt : st.tracker.iterationHistory.length + 1 <
        st.tracker.criteria.maxIterations := by
      by_contra hge
      push_neg at hge
      have := stop_at_cap st.tracker _ hge ev hev
      rw [hstop'] at this
      cases this
    simp only [hstop', Bool.false_and, Bool.not_false, Bool.and_true,
      Bool.false_eq_true, if_false]
    split_ifs <;>
      first
        | exact Or.inl ⟨_, rfl⟩
        | exact Or.inr ⟨_, rfl, rfl, addIteration_length _ _, hlt⟩

/-- Helper: with a declining user, fuel reaching the iteration cap suffices
for the loop to exit on its own. -/
theorem runLoop_finishes (O : Oracles Code)
    (hA : ∀ i, O.continueAnyway i = false) :
    ∀ (fuel : Nat) (st : LoopState Code), 1 ≤ fuel →
      st.tracker.criteria.maxIterations ≤
        st.tracker.iterationHistory.length + fuel →
      ∃ stf, runLoop O fuel st = .finished stf := by
  intro fuel
  induction fuel with
  | zero => intro st h; exact absurd h (by omega)
  | succ fuel ih =>
    intro st _ hbound
    by_cases hemp : st.remainingIssues.isEmpty
    · exact ⟨st, by simp [runLoop, hemp]⟩
    · rcases loopStep_halt_or_next O hA st with ⟨st1, hs⟩ | ⟨st1, hs, hc, hl, hlt⟩
      · exact ⟨st1, by simp [runLoop, hemp, hs]⟩
      · have h1 : 1 ≤ fuel := by omega
        have hb2 : st1.tracker.criteria.maxIterations ≤
            st1.tracker.iterationHistory.length + fuel := by
          rw [hc, hl]
          omega
        obtain ⟨stf, hf⟩ := ih st1 h1 hb2
        exact ⟨stf, by simp [runLoop, hemp, hs, hf]⟩

end InteractiveLoopProofs

/-- C6 counterexample: with max_iterations = 1 and a user who answers y to
Continue refactoring anyway?, the loop is still running after two full
fixer/analyzer round trips. -/
theorem session_exceeds_cap_on_override :
    (runLoop pushyOracles 2
        (initLoopState "c" [tokenIssue] oneIterationCriteria)).isFinished =
      false ∧
      (runLoop pushyOracles 2
          (initLoopState "c" [tokenIssue] oneIterationCriteria)).state.iteration =
        2 ∧
      oneIterationCriteria.maxIterations = 1 := by
  refine ⟨by decide, by decide, by decide⟩

/-- C6 (amended): the iteration ceiling is conditional on the user: when
max_iterations is at least 1 and the user declines every continue-anyway
prompt, the loop exits within max_iterations iterations of its body; a user
who overrides the stop recommendation can drive it past the cap. -/
theorem session_bounded_when_user_declines :
    ∀ {Code : Type} [DecidableEq Code] (O : Oracles Code)
      (originalCode : Code) (issues : List IssueD)
      (criteria : StoppingCriteria),
      (∀ i, O.continueAnyway i = false) → 1 ≤ criteria.maxIterations →
      ∃ stf, runLoop O criteria.maxIterations
          (initLoopState originalCode issues criteria) = .finished stf := by
  intro Code _inst O originalCode issues criteria hA hmax
  refine runLoop_finishes O hA criteria.maxIterations
    (initLoopState originalCode issues criteria) hmax ?_
  simp [initLoopState, Tracker.init]

/-- C6 amended witness: the declining user with the default criteria. -/
theorem session_bounded_witness :
    ∃ stf, runLoop decliningOracles defaultCriteria.maxIterations
        (initLoopState "code" [tokenIssue] defaultCriteria) = .finished stf :=
  session_bounded_when_user_declines decliningOracles "code" [tokenIssue]
    defaultCriteria (fun _ => rfl) (by decide)

end Cli

end CodeMentor
